import Mathlib

set_option maxHeartbeats 1000000

/-! Shallow embedding of the bird-classification repository.

Source files embedded here:
  services/spectrogram_manager.py  (SpectrogramManager: parameter handling,
    load_audio, generate_mel_spectrogram, generate_mel_spectrogram_from_array,
    together with the semantics of the librosa calls they make:
    librosa.load, librosa.feature.melspectrogram with its default
    center=True framing, and librosa.power_to_db with ref=np.max), and
  services/xeno_canto_service.py  (XenoCantoService: search_recordings,
    get_all_recordings_for_species).

Floating-point sample and energy values are modelled as rationals where the
computation is exact and as real numbers where logarithms, trigonometric
functions and the mel filter construction are involved. -/

/-! ## Parameter model (spectrogram_manager.py lines 26-35, 120-122, 179-197) -/

/-- The eight recognized spectrogram parameters, in the order of
SpectrogramManager.DEFAULT_PARAMS.  All numeric fields are modelled as
rationals; figsize is a (width, height) pair. -/
structure SpecParams where
  n_fft : ℚ
  hop_length : ℚ
  n_mels : ℚ
  fmin : ℚ
  fmax : ℚ
  sr : ℚ
  dpi : ℚ
  figsize : ℚ × ℚ
deriving DecidableEq

/-- A per-call keyword-argument override mapping over the recognized keys:
a field is `some v` when the caller supplies that key. -/
structure SpecOverrides where
  n_fft : Option ℚ := none
  hop_length : Option ℚ := none
  n_mels : Option ℚ := none
  fmin : Option ℚ := none
  fmax : Option ℚ := none
  sr : Option ℚ := none
  dpi : Option ℚ := none
  figsize : Option (ℚ × ℚ) := none
deriving DecidableEq

/-- SpectrogramManager.DEFAULT_PARAMS (lines 26-35). -/
def DEFAULT_PARAMS : SpecParams :=
  ⟨2048, 512, 128, 0, 8000, 22050, 100, (10, 4)⟩

/-- Lines 120-122 / 219-220: params = self.params.copy(); params.update(kwargs).
Each supplied key replaces the default, unsupplied keys keep the base value. -/
def mergeParams (base : SpecParams) (o : SpecOverrides) : SpecParams :=
  ⟨o.n_fft.getD base.n_fft, o.hop_length.getD base.hop_length,
   o.n_mels.getD base.n_mels, o.fmin.getD base.fmin, o.fmax.getD base.fmax,
   o.sr.getD base.sr, o.dpi.getD base.dpi, o.figsize.getD base.figsize⟩

/-- Line 75: target_sr = sr or self.params.get(defaultSr).  Python `or`
treats a zero sample-rate argument as falsy and falls back to the
manager-level default. -/
def pyOrSr (srArg : Option ℚ) (selfSr : ℚ) : ℚ :=
  match srArg with
  | none => selfSr
  | some s => if s = 0 then selfSr else s

/-- load_audio (lines 55-85).  The audio file is modelled by the sample list
it decodes to, already at the target rate; `none` stands for a missing or
unreadable file, which the source turns into a raised exception.  A
`duration` argument truncates to at most that many seconds, i.e. to
floor(duration * target_sr) samples; librosa raises no error for an empty
result. -/
def load_audio (file : Option (List ℚ)) (srArg : Option ℚ) (selfSr : ℚ)
    (duration : Option ℚ) : Except String (List ℚ × ℚ) :=
  let target := pyOrSr srArg selfSr
  match file with
  | none => Except.error "Failed to load audio"
  | some samples =>
    match duration with
    | none => Except.ok (samples, target)
    | some d => Except.ok (samples.take (Int.toNat ⌊d * target⌋), target)

/-- Lines 179-189: the params_for_metadata dictionary of
generate_mel_spectrogram.  It copies the merged parameters but records, in
the sr slot, the sample rate actually returned by load_audio, which is
pyOrSr applied to the merged sr over the manager default. -/
def params_for_metadata (base : SpecParams) (o : SpecOverrides) : SpecParams :=
  let p := mergeParams base o
  { p with sr := pyOrSr (some p.sr) base.sr }

/-- A JSON value as produced by json.dumps on the metadata dictionary:
numbers, or an array of numbers (the figsize pair serializes as an array). -/
inductive JVal where
  | num : ℚ → JVal
  | arr : List ℚ → JVal
deriving DecidableEq

/-- Lines 180-189 / 277-286 followed by json.dumps: the serialized
spectrogram_params record, as an ordered key-value list. -/
def serializeParams (p : SpecParams) : List (String × JVal) :=
  [("n_fft", JVal.num p.n_fft), ("hop_length", JVal.num p.hop_length),
   ("n_mels", JVal.num p.n_mels), ("fmin", JVal.num p.fmin),
   ("fmax", JVal.num p.fmax), ("sr", JVal.num p.sr),
   ("dpi", JVal.num p.dpi), ("figsize", JVal.arr [p.figsize.1, p.figsize.2])]

/-- Key lookup in a serialized record (the json.loads view of it). -/
def jlookup (l : List (String × JVal)) (k : String) : Option JVal :=
  (l.find? (fun kv => kv.1 == k)).map (fun kv => kv.2)

/-- Parsing a serialized spectrogram_params record back into the parameter
model: every recognized key must be present with a value of the right
shape. -/
def parseParams (l : List (String × JVal)) : Option SpecParams :=
  match jlookup l "n_fft", jlookup l "hop_length", jlookup l "n_mels",
      jlookup l "fmin", jlookup l "fmax", jlookup l "sr", jlookup l "dpi",
      jlookup l "figsize" with
  | some (JVal.num a), some (JVal.num b), some (JVal.num c),
      some (JVal.num d), some (JVal.num e), some (JVal.num f),
      some (JVal.num g), some (JVal.arr [w, h]) =>
    some ⟨a, b, c, d, e, f, g, (w, h)⟩
  | _, _, _, _, _, _, _, _ => none

/-- The metadata record returned by the generation entry points (lines
288-294), restricted to the fields the verified claims mention; the image
dimensions are read back from the written file by the renderer and are not
part of the parameter flow. -/
structure SpecResult where
  sample_rate : ℚ
  duration_seconds : ℚ
  spectrogram_params : List (String × JVal)
deriving DecidableEq

/-- Lines 218-221: generate_mel_spectrogram_from_array merges kwargs over
the manager parameters and then unconditionally overwrites the sr slot with
the sr argument. -/
def from_array_params (base : SpecParams) (o : SpecOverrides) (sr : ℚ) :
    SpecParams :=
  { mergeParams base o with sr := sr }

/-- generate_mel_spectrogram_from_array (lines 199-294): the metadata
result built from an audio array of nSamples samples at rate sr. -/
def generate_mel_spectrogram_from_array (base : SpecParams)
    (o : SpecOverrides) (nSamples : ℕ) (sr : ℚ) : SpecResult :=
  { sample_rate := sr,
    duration_seconds := (nSamples : ℚ) / sr,
    spectrogram_params := serializeParams (from_array_params base o sr) }

/-! ## The librosa mel-spectrogram computation (lines 129-137 / 226-234)

The code calls librosa.feature.melspectrogram with default center=True
framing.  That call pads the signal with floor(n_fft/2) zeros on each side
(pad_mode constant), slides a Hann-windowed frame of length n_fft with
stride hop_length over the padded signal, takes the squared magnitude of
the discrete Fourier transform of each frame, and projects onto n_mels
Slaney-scale triangular mel filters spanning fmin..fmax.  With center=True
a signal shorter than n_fft is padded, not rejected; librosa raises only
when hop_length is not positive or when even the padded signal cannot hold
one frame (possible only for odd n_fft). -/

/-- Center padding: floor(n_fft/2) zeros on each side of the signal. -/
def padCenter (y : List ℚ) (n_fft : ℕ) : List ℚ :=
  List.replicate (n_fft / 2) 0 ++ y ++ List.replicate (n_fft / 2) 0

/-- Number of frames obtained by sliding a length-n_fft window with stride
hop over a signal of length L (librosa util.frame convention). -/
def nFrames (L n_fft hop : ℕ) : ℕ := (L - n_fft) / hop + 1

/-- The frame starting at sample index start. -/
def frameAt (y : List ℚ) (start n_fft : ℕ) : List ℚ :=
  (y.drop start).take n_fft

/-- Hann window coefficient, scipy periodic convention used by librosa. -/
noncomputable def hann (N n : ℕ) : ℝ :=
  1 / 2 - 1 / 2 * Real.cos (2 * Real.pi * (n : ℝ) / (N : ℝ))

/-- Squared magnitude of bin k of the discrete Fourier transform of a
Hann-windowed frame. -/
noncomputable def dftPower (x : List ℚ) (N k : ℕ) : ℝ :=
  (∑ n ∈ Finset.range N,
      ((x.getD n 0 : ℚ) : ℝ) * hann N n *
        Real.cos (2 * Real.pi * (k : ℝ) * (n : ℝ) / (N : ℝ))) ^ 2 +
  (∑ n ∈ Finset.range N,
      ((x.getD n 0 : ℚ) : ℝ) * hann N n *
        Real.sin (2 * Real.pi * (k : ℝ) * (n : ℝ) / (N : ℝ))) ^ 2

/-- Hz to mel, Slaney scale (librosa default htk=False): linear below
1000 Hz, logarithmic above. -/
noncomputable def hz_to_mel (f : ℝ) : ℝ :=
  if f < 1000 then f * 3 / 200
  else 15 + Real.log (f / 1000) * 27 / Real.log 6.4

/-- Mel to Hz, inverse of the Slaney scale. -/
noncomputable def mel_to_hz (m : ℝ) : ℝ :=
  if m < 15 then m * 200 / 3
  else 1000 * Real.exp (Real.log 6.4 / 27 * (m - 15))

/-- The i-th of the nMels+2 mel band edge frequencies, linearly spaced on
the mel scale between fmin and fmax. -/
noncomputable def melPoint (fmin fmax : ℝ) (nMels i : ℕ) : ℝ :=
  mel_to_hz (hz_to_mel fmin +
    (hz_to_mel fmax - hz_to_mel fmin) * (i : ℝ) / ((nMels : ℝ) + 1))

/-- Weight of FFT bin k in mel filter m: the triangular filter of
librosa.filters.mel with Slaney normalization, evaluated at the FFT bin
frequency k*sr/n_fft against the mel band edges m, m+1, m+2. -/
noncomputable def melWeight (sr n_fft nMels : ℕ) (fmin fmax : ℝ)
    (m k : ℕ) : ℝ :=
  max 0 (min
      (((k : ℝ) * (sr : ℝ) / (n_fft : ℝ) - melPoint fmin fmax nMels m) /
        (melPoint fmin fmax nMels (m + 1) - melPoint fmin fmax nMels m))
      ((melPoint fmin fmax nMels (m + 2) - (k : ℝ) * (sr : ℝ) / (n_fft : ℝ)) /
        (melPoint fmin fmax nMels (m + 2) - melPoint fmin fmax nMels (m + 1)))) *
    (2 / (melPoint fmin fmax nMels (m + 2) - melPoint fmin fmax nMels m))

/-- The power spectrogram of the center-padded signal: a matrix indexed
(frequency bin, frame), shape (1 + n_fft/2, nFrames). -/
noncomputable def stftPower (y : List ℚ) (n_fft hop : ℕ) : List (List ℝ) :=
  (List.range (1 + n_fft / 2)).map fun k =>
    (List.range (nFrames (padCenter y n_fft).length n_fft hop)).map fun t =>
      dftPower (frameAt (padCenter y n_fft) (t * hop) n_fft) n_fft k

/-- librosa.feature.melspectrogram: mel filter bank applied to the power
spectrogram; a matrix of shape (n_mels, nFrames). -/
noncomputable def melspectrogram (y : List ℚ) (sr n_fft hop nMels : ℕ)
    (fmin fmax : ℚ) : List (List ℝ) :=
  (List.range nMels).map fun m =>
    (List.range (nFrames (padCenter y n_fft).length n_fft hop)).map fun t =>
      ∑ k ∈ Finset.range (1 + n_fft / 2),
        melWeight sr n_fft nMels (fmin : ℝ) (fmax : ℝ) m k *
          (((stftPower y n_fft hop).getD k []).getD t 0)

/-- The melspectrogram call including the error behavior of librosa with
center=True: a non-positive hop_length is rejected, and framing fails only
when even the center-padded signal is shorter than n_fft.  A clip shorter
than n_fft merely triggers a warning and is padded. -/
noncomputable def melspectrogramE (y : List ℚ) (sr n_fft hop nMels : ℕ)
    (fmin fmax : ℚ) : Except String (List (List ℝ)) :=
  if hop = 0 then Except.error "hop_length must be a positive integer"
  else if (padCenter y n_fft).length < n_fft then
    Except.error "Input is too short for frame_length"
  else Except.ok (melspectrogram y sr n_fft hop nMels fmin fmax)

/-! ## Decibel conversion (lines 140 / 237)

librosa.power_to_db(S, ref=np.max) with defaults amin=1e-10, top_db=80:
log_spec = 10*log10(max(amin, S)) - 10*log10(max(amin, abs(max(S)))),
then clipped from below at its own maximum minus 80. -/

/-- The amin floor of librosa.power_to_db. -/
noncomputable def aminR : ℝ := 1 / 10 ^ 10

/-- The per-clip reference: np.max over all entries of the matrix. -/
noncomputable def refMax (S : List (List ℝ)) : ℝ :=
  (S.flatten.maximum).unbot' 0

/-- One entry of the decibel matrix before top_db clipping; the reference
value is the absolute value of the per-clip maximum, per librosa
ref_value = abs(ref(S)). -/
noncomputable def dbEntry (S : List (List ℝ)) (x : ℝ) : ℝ :=
  10 * Real.logb 10 (max aminR x) - 10 * Real.logb 10 (max aminR |refMax S|)

/-- The decibel matrix before top_db clipping. -/
noncomputable def dbRaw (S : List (List ℝ)) : List (List ℝ) :=
  S.map (List.map (dbEntry S))

/-- The top_db clipping applied to one entry: clip from below at the raw
maximum minus top_db = 80. -/
noncomputable def dbClip (S : List (List ℝ)) (v : ℝ) : ℝ :=
  max v (((dbRaw S).flatten.maximum).unbot' 0 - 80)

/-- librosa.power_to_db with ref=np.max: the raw decibel matrix clipped
from below at its maximum minus top_db = 80. -/
noncomputable def power_to_db (S : List (List ℝ)) : List (List ℝ) :=
  (dbRaw S).map (List.map (dbClip S))

/-! ## The output write sequence (lines 161-177 / 258-274)

The save section runs: mkdir of the parent directories, plt.savefig
directly to output_path, plt.close, then reading the written file back for
its dimensions.  There is no temporary path, no rename and no exception
handler, so a failure injected into the write step leaves whatever savefig
had produced so far at output_path and propagates.  The model tracks the
state of the file at output_path through the sequence. -/

/-- State of the file at the output path. -/
inductive FileState where
  | absent
  | truncated
  | complete
deriving DecidableEq

/-- The operations of the save section, in source order. -/
inductive WOp where
  | mkdirParents
  | writeFile
  | closeFigure
  | readBack
deriving DecidableEq

/-- The save section of both generation entry points. -/
def writePhase : List WOp := [WOp.mkdirParents, WOp.writeFile, WOp.closeFigure, WOp.readBack]

/-- Effect of one operation on the output file: only the write touches it;
a write that fails midway leaves a truncated file. -/
def stepFile (st : FileState) (op : WOp) (fails : Bool) : FileState :=
  match op, fails with
  | WOp.writeFile, false => FileState.complete
  | WOp.writeFile, true => FileState.truncated
  | _, _ => st

/-- Run the save section under a failure profile.  The code wraps none of
these calls in a handler, so the first failing operation aborts the
sequence with the file state it left behind; the Bool result records
whether the sequence completed. -/
def runPhase (st : FileState) (ops : List WOp) (fails : WOp → Bool) :
    FileState × Bool :=
  match ops with
  | [] => (st, true)
  | op :: rest =>
    let st2 := stepFile st op (fails op)
    if fails op then (st2, false) else runPhase st2 rest fails

/-- Failure profile in which the savefig call fails midway through. -/
def failAtWrite : WOp → Bool :=
  fun op => match op with
  | WOp.writeFile => true
  | _ => false

/-- Failure profile of a fully successful run. -/
def noFailure : WOp → Bool := fun _ => false

/-! ## XenoCantoService.search_recordings (xeno_canto_service.py 80-164) -/

/-- Python str.split with maxsplit=1 on a single-space separator. -/
def split1 (s : String) : List String :=
  match s.splitOn " " with
  | [] => []
  | [x] => [x]
  | x :: rest => [x, String.intercalate " " rest]

/-- A tag:value query part, quoting the value exactly when it contains a
space (lines 118-124, 129-134, 140-146). -/
def quoteTag (tag v : String) : String :=
  if v.contains ' ' then tag ++ ":\"" ++ v ++ "\"" else tag ++ ":" ++ v

/-- A query part from an optional filter that is quoted when multi-word;
Python truthiness skips both missing and empty values. -/
def optPart (tag : String) (v : Option String) : List String :=
  match v with
  | none => []
  | some s => if s.isEmpty then [] else [quoteTag tag s]

/-- A query part from an optional filter appended without quoting
(quality, since). -/
def plainPart (tag : String) (v : Option String) : List String :=
  match v with
  | none => []
  | some s => if s.isEmpty then [] else [tag ++ ":" ++ s]

/-- Lines 109-116: a scientific name containing a space is split into
genus and species tags, otherwise a quoted sci tag is used. -/
def sciPart (v : Option String) : List String :=
  match v with
  | none => []
  | some s =>
    if s.isEmpty then []
    else
      match split1 s with
      | [g, sp] => ["gen:" ++ g ++ " sp:" ++ sp]
      | _ => ["sci:\"" ++ s ++ "\""]

/-- Lines 140-146: additional keyword query parts; falsy (empty) values
are skipped. -/
def extraParts (extra : List (String × String)) : List String :=
  extra.filterMap (fun kv =>
    if kv.2.isEmpty then none else some (quoteTag kv.1 kv.2))

/-- Line 149: the query string joining all parts with spaces. -/
def queryOf (sci common quality country since : Option String)
    (extra : List (String × String)) : String :=
  String.intercalate " "
    (sciPart sci ++ optPart "en" common ++ plainPart "q" quality ++
     optPart "cnt" country ++ plainPart "since" since ++ extraParts extra)

/-- search_recordings (lines 80-164), modelled up to the request parameter
list it would send: an empty query raises ValueError first (line 151); a
supplied per_page outside 50..500 raises ValueError (lines 159-161); an
in-range per_page is forwarded as a request parameter (line 162). -/
def search_recordings (sci common quality country since : Option String)
    (extra : List (String × String)) (page : ℤ) (per_page : Option ℤ) :
    Except String (List (String × String)) :=
  let query := queryOf sci common quality country since extra
  if query.isEmpty then
    Except.error "At least one search parameter is required for API v3"
  else
    match per_page with
    | none => Except.ok [("query", query), ("page", toString page)]
    | some pp =>
      if 50 ≤ pp ∧ pp ≤ 500 then
        Except.ok
          [("query", query), ("page", toString page),
           ("per_page", toString pp)]
      else Except.error "per_page must be between 50 and 500"

/-! ## XenoCantoService.get_all_recordings_for_species (lines 166-223)

The paginated responses are modelled by a function from page number to an
optional (recordings, numPages) pair; recordings are opaque identifiers.
The while loop is modelled with an explicit fuel bound on the number of
iterations; running out of fuel returns what was accumulated so far, which
only strengthens the universally quantified bound proved about it. -/

/-- The body of the pagination while loop (lines 192-221).  The Python
truthiness test `if max_recordings` makes a zero bound behave like none. -/
def gaLoop (resp : ℕ → Option (List ℕ × ℕ)) (maxR : Option ℕ) :
    ℕ → ℕ → List ℕ → List ℕ
  | 0, _, acc => acc
  | fuel + 1, page, acc =>
    match resp page with
    | none => acc
    | some (recs, numPages) =>
      if recs.isEmpty then acc
      else
        match maxR with
        | some m =>
          if m ≠ 0 ∧ m ≤ (acc ++ recs).length then (acc ++ recs).take m
          else if numPages ≤ page then acc ++ recs
          else gaLoop resp maxR fuel (page + 1) (acc ++ recs)
        | none =>
          if numPages ≤ page then acc ++ recs
          else gaLoop resp maxR fuel (page + 1) (acc ++ recs)

/-- get_all_recordings_for_species: run the pagination loop from page 1
with an empty accumulator. -/
def get_all_recordings_for_species (resp : ℕ → Option (List ℕ × ℕ))
    (maxR : Option ℕ) (fuel : ℕ) : List ℕ :=
  gaLoop resp maxR fuel 1 []

/-! ## SpectrogramManager construction and get_default_params (lines 37-53)

The constructor stores `default_params or DEFAULT_PARAMS.copy()`: a
supplied non-empty dictionary is stored as given (no defaults merged in),
while a missing or empty one is replaced by a copy of the class defaults.
get_default_params returns a copy of the stored dictionary.  To express
that the returned copy is independent of the stored one, dictionaries live
in an explicit heap of cells and mutation acts on a cell index. -/

/-- The class-level default dictionary, as a key-value list. -/
def DEFAULT_PARAMS_dict : List (String × JVal) :=
  [("n_fft", JVal.num 2048), ("hop_length", JVal.num 512),
   ("n_mels", JVal.num 128), ("fmin", JVal.num 0),
   ("fmax", JVal.num 8000), ("sr", JVal.num 22050),
   ("dpi", JVal.num 100), ("figsize", JVal.arr [10, 4])]

/-- A manager together with the heap of dictionary cells it can reach;
selfRef is the index of the cell holding self.params. -/
structure SpectrogramManager where
  cells : List (List (String × JVal))
  selfRef : ℕ
deriving DecidableEq

/-- The dictionary stored in a given cell. -/
def cellAt (s : SpectrogramManager) (r : ℕ) : List (String × JVal) :=
  s.cells.getD r []

/-- The constructor (lines 37-44): self.params = default_params or
DEFAULT_PARAMS.copy().  An empty dictionary is falsy in Python. -/
def smInit (d : Option (List (String × JVal))) : SpectrogramManager :=
  ⟨[match d with
    | some l => if l.isEmpty then DEFAULT_PARAMS_dict else l
    | none => DEFAULT_PARAMS_dict], 0⟩

/-- get_default_params (lines 46-53): allocate a fresh cell holding a copy
of self.params and return its index. -/
def get_default_params (s : SpectrogramManager) :
    SpectrogramManager × ℕ :=
  (⟨s.cells ++ [cellAt s s.selfRef], s.selfRef⟩, s.cells.length)

/-- Assignment d[k] = v on a key-value list. -/
def dictSet (l : List (String × JVal)) (k : String) (v : JVal) :
    List (String × JVal) :=
  if l.any (fun kv => kv.1 == k) then
    l.map (fun kv => if kv.1 == k then (k, v) else kv)
  else l ++ [(k, v)]

/-- Mutation of the dictionary held in cell r. -/
def heapSet (s : SpectrogramManager) (r : ℕ) (k : String) (v : JVal) :
    SpectrogramManager :=
  ⟨s.cells.set r (dictSet (cellAt s r) k v), s.selfRef⟩

/-- Key lookup in a stored dictionary. -/
def lookupD (l : List (String × JVal)) (k : String) : Option JVal :=
  (l.find? (fun kv => kv.1 == k)).map (fun kv => kv.2)

/-- Concrete override used as a witness input: only n_mels supplied. -/
def oNMels : SpecOverrides :=
  ⟨none, none, some 64, none, none, none, none, none⟩

/-- Concrete override supplying the falsy sample rate zero. -/
def oSrZero : SpecOverrides :=
  ⟨none, none, none, none, none, some 0, none, none⟩

/-- Concrete constructor dictionary used as a witness input: a single
key, deliberately missing all other recognized keys. -/
def d0 : List (String × JVal) := [("n_mels", JVal.num 64)]

/-! ## General lemmas about the embedded definitions -/

/-- Serialization of the parameter record parses back to exactly the same
record. -/
theorem parse_serialize_roundtrip (p : SpecParams) :
    parseParams (serializeParams p) = some p := rfl

/-- When the merged sample rate is nonzero, the metadata parameters of
generate_mel_spectrogram coincide with the merged parameters. -/
theorem params_for_metadata_eq (base : SpecParams) (o : SpecOverrides)
    (h : (mergeParams base o).sr ≠ 0) :
    params_for_metadata base o = mergeParams base o := by
  simp [params_for_metadata, pyOrSr, h]

/-- Length of the center-padded signal. -/
theorem padCenter_length (y : List ℚ) (n_fft : ℕ) :
    (padCenter y n_fft).length = y.length + 2 * (n_fft / 2) := by
  simp [padCenter]
  omega

/-- For an even FFT size the librosa center=True frame count is
floor(len/hop) + 1. -/
theorem nFrames_padCenter (y : List ℚ) (n_fft hop : ℕ) (h2 : 2 ∣ n_fft) :
    nFrames (padCenter y n_fft).length n_fft hop = y.length / hop + 1 := by
  obtain ⟨t, rfl⟩ := h2
  have ht : 2 * t / 2 = t := Nat.mul_div_cancel_left t (by norm_num)
  rw [nFrames, padCenter_length, ht]
  have harg : y.length + 2 * t - 2 * t = y.length := by omega
  rw [harg]

/-- The mel spectrogram has one row per mel band. -/
theorem melspectrogram_length (y : List ℚ) (sr n_fft hop nMels : ℕ)
    (fmin fmax : ℚ) :
    (melspectrogram y sr n_fft hop nMels fmin fmax).length = nMels := by
  simp [melspectrogram]

/-- Every row of the mel spectrogram has the librosa frame count. -/
theorem melspectrogram_row_length (y : List ℚ) (sr n_fft hop nMels : ℕ)
    (fmin fmax : ℚ) (row : List ℝ)
    (hrow : row ∈ melspectrogram y sr n_fft hop nMels fmin fmax) :
    row.length = nFrames (padCenter y n_fft).length n_fft hop := by
  rw [melspectrogram] at hrow
  obtain ⟨m, hm, rfl⟩ := List.mem_map.mp hrow
  simp

/-- The first row of a nonempty mel spectrogram has the librosa frame
count. -/
theorem melspectrogram_getD_zero_length (y : List ℚ) (sr n_fft hop nMels : ℕ)
    (fmin fmax : ℚ) (hm : 0 < nMels) :
    ((melspectrogram y sr n_fft hop nMels fmin fmax).getD 0 []).length =
      nFrames (padCenter y n_fft).length n_fft hop := by
  rw [melspectrogram, List.getD_eq_getElem?_getD, List.getElem?_map,
    List.getElem?_range hm]
  simp

/-- C4 counterexample: with the override mapping that supplies sr = 0 (a
recognized key), the serialized spectrogram_params does not parse back to
the merged parameter set, because load_audio treats the falsy zero as
missing and records the manager default 22050 instead. -/
theorem c4_cex_sr_zero :
    parseParams (serializeParams (params_for_metadata DEFAULT_PARAMS oSrZero)) ≠
      some (mergeParams DEFAULT_PARAMS oSrZero) := by decide

/-- C4 (amended): for every override mapping over the recognized keys in
which a supplied sr override is nonzero, the effective parameters are the
documented defaults with exactly the overridden fields replaced, and the
serialized spectrogram_params record parses back to that merged set. -/
theorem c4_merge_roundtrip (o : SpecOverrides)
    (hsr : ∀ s, o.sr = some s → s ≠ 0) :
    parseParams (serializeParams (params_for_metadata DEFAULT_PARAMS o)) =
      some (mergeParams DEFAULT_PARAMS o) ∧
    (o.n_fft = none →
      (mergeParams DEFAULT_PARAMS o).n_fft = DEFAULT_PARAMS.n_fft) ∧
    (o.hop_length = none →
      (mergeParams DEFAULT_PARAMS o).hop_length = DEFAULT_PARAMS.hop_length) ∧
    (o.n_mels = none →
      (mergeParams DEFAULT_PARAMS o).n_mels = DEFAULT_PARAMS.n_mels) ∧
    (o.fmin = none →
      (mergeParams DEFAULT_PARAMS o).fmin = DEFAULT_PARAMS.fmin) ∧
    (o.fmax = none →
      (mergeParams DEFAULT_PARAMS o).fmax = DEFAULT_PARAMS.fmax) ∧
    (o.sr = none →
      (mergeParams DEFAULT_PARAMS o).sr = DEFAULT_PARAMS.sr) ∧
    (o.dpi = none →
      (mergeParams DEFAULT_PARAMS o).dpi = DEFAULT_PARAMS.dpi) ∧
    (o.figsize = none →
      (mergeParams DEFAULT_PARAMS o).figsize = DEFAULT_PARAMS.figsize) := by
  have hsr2 : (mergeParams DEFAULT_PARAMS o).sr ≠ 0 := by
    cases hso : o.sr with
    | none => simp [mergeParams, hso, DEFAULT_PARAMS]
    | some s => simpa [mergeParams, hso] using hsr s hso
  refine ⟨?_, ?_, ?_, ?_, ?_, ?_, ?_, ?_, ?_⟩
  · rw [params_for_metadata_eq _ _ hsr2, parse_serialize_roundtrip]
  all_goals intro h
  all_goals simp [mergeParams, h]

/-- C4 witness: overriding only n_mels satisfies the hypotheses; the
round trip holds and unspecified fields keep their documented defaults. -/
theorem c4_witness :
    oNMels.sr = none ∧
    parseParams (serializeParams (params_for_metadata DEFAULT_PARAMS oNMels)) =
      some (mergeParams DEFAULT_PARAMS oNMels) ∧
    (mergeParams DEFAULT_PARAMS oNMels).n_mels = 64 ∧
    (mergeParams DEFAULT_PARAMS oNMels).n_fft = DEFAULT_PARAMS.n_fft :=
  ⟨rfl, (c4_merge_roundtrip oNMels (fun _ h => nomatch h)).1, by decide,
    (c4_merge_roundtrip oNMels (fun _ h => nomatch h)).2.1 rfl⟩

/-- C8: in generate_mel_spectrogram_from_array the sr argument is
authoritative: a supplied sr override is silently discarded, the returned
sample_rate field equals the sr argument, and the sr entry of the parsed
spectrogram_params equals the sr argument. -/
theorem c8_sr_argument_authoritative (base : SpecParams) (o : SpecOverrides)
    (n : ℕ) (sr : ℚ) :
    from_array_params base o sr = from_array_params base { o with sr := none } sr ∧
    (generate_mel_spectrogram_from_array base o n sr).sample_rate = sr ∧
    (parseParams
        (generate_mel_spectrogram_from_array base o n sr).spectrogram_params).map
      SpecParams.sr = some sr := by
  refine ⟨rfl, rfl, ?_⟩
  rw [generate_mel_spectrogram_from_array]
  rw [parse_serialize_roundtrip]
  rfl

/-- C5 counterexample: loading a readable three-sample file with a maximum
duration of zero returns a zero-sample clip without any error, rather than
raising. -/
theorem c5_cex_duration_zero :
    load_audio (some [1, 2, 3]) (some 22050) 22050 (some 0) =
      Except.ok ([], 22050) := by
  simp [load_audio, pyOrSr]

/-- C5 (amended): for every readable file, a maximum duration of zero
yields a zero-sample clip and no error; load_audio raises only when the
file itself is missing or unreadable. -/
theorem c5_duration_zero_empty (samples : List ℚ) (srArg : Option ℚ)
    (selfSr : ℚ) (dur : Option ℚ) :
    load_audio (some samples) srArg selfSr (some 0) =
      Except.ok ([], pyOrSr srArg selfSr) ∧
    load_audio none srArg selfSr dur =
      Except.error "Failed to load audio" := by
  constructor
  · simp [load_audio]
  · simp [load_audio]

/-- C6 counterexample: a run whose write step fails midway ends with a
truncated file at the output path (prior state: no file), which is neither
the prior state nor a complete file — the write is not atomic. -/
theorem c6_cex_truncated :
    runPhase FileState.absent writePhase failAtWrite =
      (FileState.truncated, false) ∧
    FileState.truncated ≠ FileState.absent ∧
    FileState.truncated ≠ FileState.complete := by decide

/-- C6 (amended): the save sequence writes directly to the output path
with no temporary file, rename, or cleanup handler: whatever the prior
state of the path, a failure injected into the write step leaves a
truncated file there and reports the error, while a failure-free run
leaves a complete file. -/
theorem c6_write_not_atomic (prior : FileState) :
    runPhase prior writePhase failAtWrite = (FileState.truncated, false) ∧
    runPhase prior writePhase noFailure = (FileState.complete, true) := by
  cases prior <;> exact ⟨rfl, rfl⟩

/-- C7 counterexample: a call that supplies the in-range per_page = 100 but
no search filter raises ValueError (for the empty query) even though
per_page lies inside 50..500 — so a ValueError is not raised if and only if
per_page is out of range. -/
theorem c7_cex_empty_query :
    search_recordings none none none none none [] 1 (some 100) =
      Except.error "At least one search parameter is required for API v3" ∧
    (50 ≤ (100 : ℤ) ∧ (100 : ℤ) ≤ 500) := by
  exact ⟨rfl, by decide⟩

/-- C7 (amended): provided at least one filter yields a nonempty query,
a supplied per_page raises ValueError exactly when it lies outside 50..500,
an in-range per_page is forwarded in the request parameters, and an
omitted per_page raises no error. -/
theorem c7_per_page_range (sci common quality country since : Option String)
    (extra : List (String × String)) (page : ℤ) (per_page : Option ℤ)
    (hq : (queryOf sci common quality country since extra).isEmpty = false) :
    (∀ pp, per_page = some pp → ¬(50 ≤ pp ∧ pp ≤ 500) →
      search_recordings sci common quality country since extra page per_page =
        Except.error "per_page must be between 50 and 500") ∧
    (∀ pp, per_page = some pp → 50 ≤ pp → pp ≤ 500 →
      search_recordings sci common quality country since extra page per_page =
        Except.ok
          [("query", queryOf sci common quality country since extra),
           ("page", toString page), ("per_page", toString pp)]) ∧
    (per_page = none →
      search_recordings sci common quality country since extra page per_page =
        Except.ok
          [("query", queryOf sci common quality country since extra),
           ("page", toString page)]) := by
  refine ⟨?_, ?_, ?_⟩
  · intro pp hpp hout
    subst hpp
    simp [search_recordings, hq, hout]
  · intro pp hpp h1 h2
    subst hpp
    simp [search_recordings, hq, h1, h2]
  · intro hpp
    subst hpp
    simp [search_recordings, hq]

/-- C7 witness: a quality-filtered search with per_page = 100 satisfies
the hypotheses and the in-range per_page is forwarded. -/
theorem c7_witness :
    (queryOf none none (some "A") none none []).isEmpty = false ∧
    search_recordings none none (some "A") none none [] 1 (some 100) =
      Except.ok
        [("query", queryOf none none (some "A") none none []),
         ("page", toString (1 : ℤ)), ("per_page", toString (100 : ℤ))] :=
  ⟨by decide,
    (c7_per_page_range _ _ _ _ _ _ _ _ (by decide)).2.1 100 rfl (by decide)
      (by decide)⟩

/-- C9: a non-empty constructor dictionary is stored exactly as given
(keys it lacks are not filled in from the class defaults), and
get_default_params returns a fresh copy: its cell holds the same entries,
and mutating that cell leaves the manager-held dictionary unchanged. -/
theorem c9_init_exact_and_copy (d : List (String × JVal)) (hd : d ≠ []) :
    cellAt (smInit (some d)) (smInit (some d)).selfRef = d ∧
    (∀ k, lookupD d k = none →
      lookupD (cellAt (smInit (some d)) (smInit (some d)).selfRef) k = none) ∧
    cellAt (get_default_params (smInit (some d))).1
      (get_default_params (smInit (some d))).2 = d ∧
    (∀ k v,
      cellAt
        (heapSet (get_default_params (smInit (some d))).1
          (get_default_params (smInit (some d))).2 k v)
        (get_default_params (smInit (some d))).1.selfRef = d) := by
  have hne : d.isEmpty = false := by
    cases d with
    | nil => exact absurd rfl hd
    | cons a t => rfl
  refine ⟨?_, ?_, ?_, ?_⟩
  · simp [smInit, cellAt, hne]
  · intro k hk
    simpa [smInit, cellAt, hne] using hk
  · simp [smInit, cellAt, hne, get_default_params]
  · intro k v
    simp [smInit, cellAt, hne, get_default_params, heapSet]

/-- C9 witness: a one-key dictionary is non-empty; it is stored exactly
and the copy returned by get_default_params holds the same entries. -/
theorem c9_witness :
    d0 ≠ [] ∧
    cellAt (smInit (some d0)) (smInit (some d0)).selfRef = d0 ∧
    cellAt (get_default_params (smInit (some d0))).1
      (get_default_params (smInit (some d0))).2 = d0 :=
  ⟨by decide, (c9_init_exact_and_copy d0 (by decide)).1,
    (c9_init_exact_and_copy d0 (by decide)).2.2.1⟩

/-- The pagination loop never accumulates more than a nonzero bound: the
accumulator is truncated to the bound the moment it reaches it. -/
theorem gaLoop_length_le (resp : ℕ → Option (List ℕ × ℕ)) (N : ℕ)
    (hN : 0 < N) :
    ∀ fuel page acc, acc.length ≤ N →
      (gaLoop resp (some N) fuel page acc).length ≤ N := by
  intro fuel
  induction fuel with
  | zero => intro page acc h; simpa [gaLoop] using h
  | succ n ih =>
    intro page acc h
    rw [gaLoop]
    cases hr : resp page with
    | none => simpa using h
    | some pr =>
      obtain ⟨recs, numPages⟩ := pr
      by_cases hre : recs.isEmpty
      · simp [hre]; exact h
      · simp only [hre, if_false, Bool.false_eq_true]
        by_cases htr : N ≠ 0 ∧ N ≤ (acc ++ recs).length
        · rw [if_pos htr]
          simp [List.length_take]
        · rw [if_neg htr]
          have hlt : (acc ++ recs).length ≤ N := by
            have hN0 : N ≠ 0 := Nat.pos_iff_ne_zero.mp hN
            rcases not_and_or.mp htr with h1 | h2
            · exact absurd hN0 h1
            · omega
          by_cases hnp : numPages ≤ page
          · rw [if_pos hnp]; exact hlt
          · rw [if_neg hnp]; exact ih (page + 1) (acc ++ recs) hlt

/-- C10: with a positive max_recordings bound N, the pagination loop of
get_all_recordings_for_species returns at most N recordings, whatever the
paginated responses supply and however many iterations run. -/
theorem c10_max_recordings_cap (resp : ℕ → Option (List ℕ × ℕ))
    (N fuel : ℕ) (hN : 0 < N) :
    (get_all_recordings_for_species resp (some N) fuel).length ≤ N :=
  gaLoop_length_le resp N hN fuel 1 [] (by simp)

/-- C10 witness: a response source that keeps producing three recordings
per page over five pages, capped at two recordings. -/
theorem c10_witness :
    0 < 2 ∧
    (get_all_recordings_for_species (fun _ => some ([7, 8, 9], 5)) (some 2)
        10).length ≤ 2 :=
  ⟨by decide, c10_max_recordings_cap (fun _ => some ([7, 8, 9], 5)) 2 10 (by decide)⟩

/-- C2 counterexample: for the 2048-sample clip with the default parameter
set (n_fft = 2048, hop_length = 512), the computed matrix has 128 rows but
its first row has 5 frames, not ceil(2048/512) = 4 — librosa center=True
framing yields floor(len/hop) + 1 frames. -/
theorem c2_cex_frames :
    (melspectrogram (List.replicate 2048 0) 22050 2048 512 128 0 8000).length
      = 128 ∧
    ((melspectrogram (List.replicate 2048 0) 22050 2048 512 128 0
        8000).getD 0 []).length ≠ (2048 + 512 - 1) / 512 := by
  constructor
  · exact melspectrogram_length _ _ _ _ _ _ _
  · rw [melspectrogram_getD_zero_length _ _ _ _ _ _ _ (by norm_num)]
    rw [nFrames_padCenter _ _ _ (by norm_num)]
    rw [List.length_replicate]
    decide

/-- C2 (amended): for every clip and every parameter set with an even
n_fft, the computed matrix has n_mels rows and each row has
floor(len/hop) + 1 time frames (the librosa center=True convention). -/
theorem c2_shape_frames (y : List ℚ) (sr n_fft hop nMels : ℕ)
    (fmin fmax : ℚ) (h2 : 2 ∣ n_fft) :
    (melspectrogram y sr n_fft hop nMels fmin fmax).length = nMels ∧
    ∀ row ∈ melspectrogram y sr n_fft hop nMels fmin fmax,
      row.length = y.length / hop + 1 := by
  refine ⟨melspectrogram_length _ _ _ _ _ _ _, fun row hrow => ?_⟩
  rw [melspectrogram_row_length _ _ _ _ _ _ _ _ hrow,
    nFrames_padCenter _ _ _ h2]

/-- C2 witness: a 2048-sample clip with the default parameters has a
128-row matrix and rows of 2048/512 + 1 = 5 frames. -/
theorem c2_witness :
    (2 ∣ 2048) ∧
    (melspectrogram (List.replicate 2048 1) 22050 2048 512 128 0 8000).length
      = 128 :=
  ⟨by norm_num, (c2_shape_frames _ _ _ _ _ _ _ (by norm_num)).1⟩

/-- C3 counterexample: a 512-sample clip is strictly shorter than the
default n_fft = 2048, yet the computation succeeds (librosa center-pads the
clip) and returns a matrix — no SpectrogramComputeError is raised. -/
theorem c3_cex_short_ok :
    (List.replicate 512 (1 : ℚ)).length < 2048 ∧
    melspectrogramE (List.replicate 512 1) 22050 2048 512 128 0 8000 =
      Except.ok (melspectrogram (List.replicate 512 1) 22050 2048 512 128 0
        8000) := by
  constructor
  · rw [List.length_replicate]; norm_num
  · rw [melspectrogramE]
    norm_num [padCenter_length]

/-- C3 (amended): a clip shorter than n_fft is not rejected: for any even
n_fft and positive hop_length the computation succeeds on a short clip,
producing a matrix whose rows have floor(len/hop) + 1 frames. -/
theorem c3_short_clip_accepted (y : List ℚ) (sr n_fft hop nMels : ℕ)
    (fmin fmax : ℚ) (h2 : 2 ∣ n_fft) (hhop : hop ≠ 0)
    (hshort : y.length < n_fft) :
    melspectrogramE y sr n_fft hop nMels fmin fmax =
      Except.ok (melspectrogram y sr n_fft hop nMels fmin fmax) ∧
    ∀ row ∈ melspectrogram y sr n_fft hop nMels fmin fmax,
      row.length = y.length / hop + 1 := by
  constructor
  · rw [melspectrogramE, if_neg hhop, if_neg]
    rw [padCenter_length]
    obtain ⟨t, rfl⟩ := h2
    have ht : 2 * t / 2 = t := Nat.mul_div_cancel_left t (by norm_num)
    omega
  · intro row hrow
    rw [melspectrogram_row_length _ _ _ _ _ _ _ _ hrow,
      nFrames_padCenter _ _ _ h2]

/-- C3 witness: a 100-sample clip against the default n_fft = 2048 is
accepted and produces a matrix. -/
theorem c3_witness :
    (2 ∣ 2048) ∧ (512 : ℕ) ≠ 0 ∧ (List.replicate 100 (1 : ℚ)).length < 2048 ∧
    melspectrogramE (List.replicate 100 1) 22050 2048 512 128 0 8000 =
      Except.ok (melspectrogram (List.replicate 100 1) 22050 2048 512 128 0
        8000) :=
  ⟨by norm_num, by norm_num, by rw [List.length_replicate]; norm_num,
    (c3_short_clip_accepted _ _ _ _ _ _ _ (by norm_num) (by norm_num)
      (by rw [List.length_replicate]; norm_num)).1⟩

/-- Squared DFT magnitudes are nonnegative. -/
theorem dftPower_nonneg (x : List ℚ) (N k : ℕ) : 0 ≤ dftPower x N k :=
  add_nonneg (sq_nonneg _) (sq_nonneg _)

/-- Core decibel-normalization fact: for a matrix with at least one entry
whose per-clip np.max reference is nonnegative, power_to_db produces a
matrix whose maximum entry is exactly zero: every entry is clipped below
its own maximum, the entry attaining the reference maps to zero, and the
top_db clipping preserves the maximum. -/
theorem power_to_db_max (S : List (List ℝ)) (hne : S.flatten ≠ [])
    (href : 0 ≤ refMax S) :
    (power_to_db S).flatten.maximum = ((0 : ℝ) : WithBot ℝ) := by
  obtain ⟨r, hr⟩ : ∃ r : ℝ, S.flatten.maximum = (r : WithBot ℝ) := by
    cases hm : S.flatten.maximum with
    | bot => exact absurd (List.maximum_eq_bot.mp hm) hne
    | coe r => exact ⟨r, rfl⟩
  have hrmem : r ∈ S.flatten := List.maximum_mem hr
  have hrle : ∀ x ∈ S.flatten, x ≤ r := fun x hx => List.le_maximum_of_mem hx hr
  have hrefr : refMax S = r := by rw [refMax, hr, WithBot.unbot'_coe]
  have hrnn : 0 ≤ r := hrefr ▸ href
  have habs : |refMax S| = r := by rw [hrefr, abs_of_nonneg hrnn]
  have hfr : dbEntry S r = 0 := by rw [dbEntry, habs, sub_self]
  have hfle : ∀ x ∈ S.flatten, dbEntry S x ≤ 0 := by
    intro x hx
    rw [dbEntry, habs]
    have h1 : (0 : ℝ) < max aminR x :=
      lt_of_lt_of_le (by norm_num [aminR]) (le_max_left _ _)
    have h2 : max aminR x ≤ max aminR r := max_le_max le_rfl (hrle x hx)
    have h3 := Real.logb_le_logb_of_le (by norm_num : (1 : ℝ) < 10) h1 h2
    linarith
  have hflat : (dbRaw S).flatten = S.flatten.map (dbEntry S) := by
    rw [dbRaw, ← List.map_flatten]
  have hdbmax : (dbRaw S).flatten.maximum = ((0 : ℝ) : WithBot ℝ) := by
    rw [hflat]
    apply List.maximum_eq_coe_iff.mpr
    refine ⟨?_, ?_⟩
    · rw [← hfr]
      exact List.mem_map_of_mem _ hrmem
    · intro a ha
      obtain ⟨x, hx, rfl⟩ := List.mem_map.mp ha
      exact hfle x hx
  have hclip : dbClip S = fun v => max v (0 - 80) := by
    funext v
    rw [dbClip, hdbmax, WithBot.unbot'_coe]
  have hflat2 : (power_to_db S).flatten =
      (S.flatten.map (dbEntry S)).map (dbClip S) := by
    rw [power_to_db, ← List.map_flatten, hflat]
  rw [hflat2, hclip]
  apply List.maximum_eq_coe_iff.mpr
  refine ⟨?_, ?_⟩
  · have hmem := List.mem_map_of_mem (fun v => max v (0 - 80 : ℝ))
      (List.mem_map_of_mem (dbEntry S) hrmem)
    have h00 : max (0 : ℝ) (0 - 80) = 0 := by norm_num
    simpa [hfr, h00] using hmem
  · intro a ha
    obtain ⟨v, hv, rfl⟩ := List.mem_map.mp ha
    obtain ⟨x, hx, rfl⟩ := List.mem_map.mp hv
    exact max_le (hfle x hx) (by norm_num)

/-- C1: for every clip and parameter set for which the pipeline produces a
mel power matrix (at least one mel band, per the parameter invariants, and
a nonnegative per-clip reference maximum — mel powers are sums of squared
magnitudes under nonnegative filter weights, so this holds for every valid
parameter set), the decibel conversion with the per-clip maximum as
reference yields a matrix whose maximum entry equals zero. -/
theorem c1_db_max_zero (y : List ℚ) (sr n_fft hop nMels : ℕ)
    (fmin fmax : ℚ) (M : List (List ℝ))
    (hok : melspectrogramE y sr n_fft hop nMels fmin fmax = Except.ok M)
    (hm : 0 < nMels) (href : 0 ≤ refMax M) :
    (power_to_db M).flatten.maximum = ((0 : ℝ) : WithBot ℝ) := by
  have hM : M = melspectrogram y sr n_fft hop nMels fmin fmax := by
    by_cases h1 : hop = 0
    · rw [melspectrogramE, if_pos h1] at hok
      exact absurd hok (by simp)
    · by_cases hpad : (padCenter y n_fft).length < n_fft
      · rw [melspectrogramE, if_neg h1, if_pos hpad] at hok
        exact absurd hok (by simp)
      · rw [melspectrogramE, if_neg h1, if_neg hpad] at hok
        injection hok with h
        exact h.symm
  subst hM
  refine power_to_db_max _ ?_ href
  intro hnil
  have hall := List.flatten_eq_nil_iff.mp hnil
  have hlen := melspectrogram_length y sr n_fft hop nMels fmin fmax
  have hne : melspectrogram y sr n_fft hop nMels fmin fmax ≠ [] := by
    intro h0
    rw [h0] at hlen
    simp at hlen
    omega
  obtain ⟨row, hrow⟩ := List.exists_mem_of_ne_nil _ hne
  have hrl := melspectrogram_row_length y sr n_fft hop nMels fmin fmax row hrow
  rw [hall row hrow] at hrl
  simp [nFrames] at hrl

/-- hz_to_mel below the 1000 Hz break is linear. -/
theorem hz_to_mel_of_lt (f : ℝ) (h : f < 1000) : hz_to_mel f = f * 3 / 200 :=
  if_pos h

/-- mel_to_hz below the mel-scale break is linear. -/
theorem mel_to_hz_of_lt (m : ℝ) (h : m < 15) : mel_to_hz m = m * 200 / 3 :=
  if_pos h

/-- For the witness parameters fmin = 0, fmax = 2, nMels = 1 the mel band
edge frequencies are 0, 1 and 2. -/
theorem melPoint_witness (i : ℕ) (hi : i ≤ 2) : melPoint 0 2 1 i = i := by
  have hile : (i : ℝ) ≤ 2 := by exact_mod_cast hi
  rw [melPoint, hz_to_mel_of_lt 0 (by norm_num), hz_to_mel_of_lt 2 (by norm_num),
    mel_to_hz_of_lt]
  · push_cast
    field_simp
    ring
  · push_cast
    nlinarith

/-- Mel filter weights are nonnegative whenever the outer band edges are
increasing. -/
theorem melWeight_nonneg_of (sr n_fft nMels : ℕ) (fmin fmax : ℝ) (m k : ℕ)
    (h : 0 < melPoint fmin fmax nMels (m + 2) - melPoint fmin fmax nMels m) :
    0 ≤ melWeight sr n_fft nMels fmin fmax m k := by
  rw [melWeight]
  exact mul_nonneg (le_max_left 0 _) (div_nonneg (by norm_num) h.le)

/-- Nonnegativity survives a defaulted list read. -/
theorem getD_nonneg_of_forall (l : List ℝ) (t : ℕ)
    (h : ∀ x ∈ l, 0 ≤ x) : 0 ≤ l.getD t 0 := by
  rw [List.getD_eq_getElem?_getD]
  cases h2 : l[t]? with
  | none => simp
  | some v =>
    simp only [Option.getD_some]
    exact h v (List.getElem?_mem h2)

/-- Nonnegativity survives a defaulted matrix read. -/
theorem getD_matrix_nonneg (S : List (List ℝ)) (k t : ℕ)
    (h : ∀ row ∈ S, ∀ x ∈ row, 0 ≤ x) : 0 ≤ (S.getD k []).getD t 0 := by
  apply getD_nonneg_of_forall
  intro x hx
  rw [List.getD_eq_getElem?_getD] at hx
  cases h2 : S[k]? with
  | none =>
    rw [h2] at hx
    simp at hx
  | some row =>
    rw [h2] at hx
    simp only [Option.getD_some] at hx
    exact h row (List.getElem?_mem h2) x hx

/-- All entries of the power spectrogram are nonnegative. -/
theorem stftPower_entries_nonneg (y : List ℚ) (n_fft hop : ℕ) :
    ∀ row ∈ stftPower y n_fft hop, ∀ x ∈ row, 0 ≤ x := by
  intro row hrow x hx
  rw [stftPower] at hrow
  obtain ⟨k, hk, rfl⟩ := List.mem_map.mp hrow
  obtain ⟨t, ht, rfl⟩ := List.mem_map.mp hx
  exact dftPower_nonneg _ _ _

/-- All entries of the witness mel spectrogram are nonnegative: the filter
band edges 0, 1, 2 are increasing, so all filter weights are nonnegative,
and the power entries are squared magnitudes. -/
theorem mel_witness_entries_nonneg :
    ∀ x ∈ (melspectrogram [1] 4 2 1 1 0 2).flatten, 0 ≤ x := by
  intro x hx
  obtain ⟨row, hrow, hxr⟩ := List.mem_flatten.mp hx
  rw [melspectrogram] at hrow
  obtain ⟨m, hm, rfl⟩ := List.mem_map.mp hrow
  obtain ⟨t, ht, rfl⟩ := List.mem_map.mp hxr
  have hm0 : m = 0 := Nat.lt_one_iff.mp (List.mem_range.mp hm)
  subst hm0
  apply Finset.sum_nonneg
  intro k hk
  refine mul_nonneg ?_
    (getD_matrix_nonneg _ _ _ (stftPower_entries_nonneg _ _ _))
  push_cast
  apply melWeight_nonneg_of
  rw [melPoint_witness 2 (by norm_num), melPoint_witness 0 (by norm_num)]
  norm_num

/-- The per-clip reference maximum is nonnegative whenever all matrix
entries are (np.max of an empty matrix is modelled as 0). -/
theorem refMax_nonneg_of (S : List (List ℝ)) (h : ∀ x ∈ S.flatten, 0 ≤ x) :
    0 ≤ refMax S := by
  rw [refMax]
  cases hm : S.flatten.maximum with
  | bot => rw [WithBot.unbot'_bot]
  | coe r =>
    rw [WithBot.unbot'_coe]
    exact h r (List.maximum_mem hm)

/-- C1 witness: a one-sample clip at the smallest even FFT size with one
mel band: the pipeline produces a matrix, the reference maximum is
nonnegative, and the decibel matrix has maximum zero. -/
theorem c1_witness :
    melspectrogramE [1] 4 2 1 1 0 2 =
      Except.ok (melspectrogram [1] 4 2 1 1 0 2) ∧
    0 < 1 ∧ 0 ≤ refMax (melspectrogram [1] 4 2 1 1 0 2) ∧
    (power_to_db (melspectrogram [1] 4 2 1 1 0 2)).flatten.maximum =
      ((0 : ℝ) : WithBot ℝ) := by
  have hok : melspectrogramE [1] 4 2 1 1 0 2 =
      Except.ok (melspectrogram [1] 4 2 1 1 0 2) := by
    rw [melspectrogramE]
    norm_num [padCenter_length]
  have href := refMax_nonneg_of _ mel_witness_entries_nonneg
  exact ⟨hok, by norm_num, href,
    c1_db_max_zero [1] 4 2 1 1 0 2 _ hok (by norm_num) href⟩
